import Mathlib

/-
Verification of the snapshot/restore engine in src/python/mongodb_snapshot.py.
The Python module is shallowly embedded: documents become an inductive type of
Python values, the write step str(document) becomes an executable repr
function, the read step (strip / leading-brace check / eval in module scope)
becomes an executable parser, and the filesystem / database effects of
create_snapshot, list_snapshots and restore_snapshot become pure functions
over explicit state.
-/

/-- Python single-quote character, written via its code point. -/
def squote : Char := Char.ofNat 39

/-- Python double-quote character, written via its code point. -/
def dquote : Char := Char.ofNat 34

/-- Document values that can occur in a stored collection line: the Python
values produced by pymongo documents as they appear to str() in
create_snapshot (line 80).  Numbers are modelled as integers; floats and
binary values are outside the modelled grammar.  objectId and datetime are
the extended scalar types named by the spec. -/
inductive PyVal where
  | pyStr (s : String)
  | pyInt (n : Int)
  | pyBool (b : Bool)
  | pyNone
  | objectId (hex : String)
  | datetime (args : List Nat)
  | pyList (xs : List PyVal)
  | pyDict (kvs : List (String × PyVal))

/-- Escape one character the way Python repr of a str does inside quotes of
kind q: backslash, the active quote, newline, carriage return and tab are
escaped; other printable characters are kept verbatim (the model is restricted
to strings without further control characters). -/
def escapeChar (q c : Char) : List Char :=
  if c = '\\' then ['\\', '\\']
  else if c = q then ['\\', q]
  else if c = '\n' then ['\\', 'n']
  else if c = '\r' then ['\\', 'r']
  else if c = '\t' then ['\\', 't']
  else [c]

/-- Body of the Python repr of a string with quote character q. -/
def reprStrWith (q : Char) (s : String) : String :=
  String.mk (q :: ((s.data.map (escapeChar q)).flatten ++ [q]))

/-- Python repr of a str: single quotes, unless the string contains a single
quote and no double quote, in which case double quotes are used. -/
def pyReprStr (s : String) : String :=
  if s.data.contains squote && !(s.data.contains dquote) then reprStrWith dquote s
  else reprStrWith squote s

/-- Python repr of an int: decimal digits with a leading minus sign when
negative. -/
def intRepr (n : Int) : String :=
  if n < 0 then "-" ++ Nat.repr n.natAbs else Nat.repr n.natAbs

/-- Join strings with the separator that Python repr places between container
elements. -/
def joinComma : List String → String
  | [] => ""
  | [x] => x
  | x :: xs => x ++ ", " ++ joinComma xs

mutual

/-- Python str()/repr() of one document value, as written by create_snapshot
line 80.  Dicts print as \x7b...\x7d with repr-quoted string keys, lists as
[...], booleans as True/False, None as None; an ObjectId prints as
ObjectId('hex') and a datetime as datetime.datetime(args...). -/
def pyRepr : PyVal → String
  | PyVal.pyStr s => pyReprStr s
  | PyVal.pyInt n => intRepr n
  | PyVal.pyBool b => if b then "True" else "False"
  | PyVal.pyNone => "None"
  | PyVal.objectId h => "ObjectId(" ++ pyReprStr h ++ ")"
  | PyVal.datetime args => "datetime.datetime(" ++ joinComma (args.map Nat.repr) ++ ")"
  | PyVal.pyList xs => "[" ++ joinComma (pyReprList xs) ++ "]"
  | PyVal.pyDict kvs => "\x7b" ++ joinComma (pyReprKVs kvs) ++ "\x7d"

/-- Reprs of the elements of a list value. -/
def pyReprList : List PyVal → List String
  | [] => []
  | x :: xs => pyRepr x :: pyReprList xs

/-- Reprs of the key: value pairs of a dict value. -/
def pyReprKVs : List (String × PyVal) → List String
  | [] => []
  | (k, v) :: rest => (pyReprStr k ++ ": " ++ pyRepr v) :: pyReprKVs rest

end

/-- The write step of create_snapshot (lines 78-80): each document is written
as its Python str() on one line. -/
def encode (d : PyVal) : String := pyRepr d

/-- Characters stripped by Python str.strip(): the ASCII and Latin-1
whitespace range (wider astral Unicode space characters are outside the
modelled inputs). -/
def isPySpace (c : Char) : Bool :=
  c = ' ' || c = '\t' || c = '\n' || c = '\r' ||
  c = '\x0b' || c = '\x0c' || c = '\x1c' || c = '\x1d' ||
  c = '\x1e' || c = '\x1f' || c = '\x85' || c = '\xa0'

/-- Python str.strip() with no argument: remove leading and trailing
whitespace (restore_snapshot line 149). -/
def pyStrip (s : String) : String :=
  String.mk (((s.data.dropWhile isPySpace).reverse.dropWhile isPySpace).reverse)

/-- The test doc_str.startswith of a left brace from restore_snapshot
line 150. -/
def startsLBrace (s : String) : Bool :=
  match s.data with
  | c :: _ => c = '\x7b'
  | [] => false

/-- Identifier characters for a dotted Python name, as read by the eval model
when the input starts with a letter or underscore. -/
def isIdentChar (c : Char) : Bool := c.isAlpha || c.isDigit || c = '_' || c = '.'

/-- Split off the longest prefix of characters satisfying p. -/
def takeWhileChars (p : Char → Bool) : List Char → List Char × List Char
  | [] => ([], [])
  | c :: cs =>
    if p c then
      let r := takeWhileChars p cs
      (c :: r.1, r.2)
    else ([], c :: cs)

/-- Skip whitespace between tokens, as eval does. -/
def skipWs : List Char → List Char
  | [] => []
  | c :: cs => if isPySpace c then skipWs cs else c :: cs

/-- Resolution of a backslash escape inside a Python string literal; escapes
outside this set keep their backslash (eval of a self-produced repr never
meets those). -/
def escResolve (c : Char) : Option Char :=
  if c = '\\' then some '\\'
  else if c = 'n' then some '\n'
  else if c = 'r' then some '\r'
  else if c = 't' then some '\t'
  else if c = squote then some squote
  else if c = dquote then some dquote
  else Option.none

/-- Parse the body of a Python string literal up to the closing quote q,
resolving escapes; fails on an unterminated literal. -/
def parseStrBody (q : Char) : List Char → Option (List Char × List Char)
  | [] => Option.none
  | '\\' :: [] => Option.none
  | '\\' :: d :: rest =>
    match escResolve d with
    | some e => do
      let r ← parseStrBody q rest
      some (e :: r.1, r.2)
    | Option.none => do
      let r ← parseStrBody q rest
      some ('\\' :: d :: r.1, r.2)
  | c :: rest =>
    if c = q then some ([], rest)
    else do
      let r ← parseStrBody q rest
      some (c :: r.1, r.2)

/-- Numeric value of a list of decimal digit characters. -/
def digitsToNat (ds : List Char) : Nat :=
  ds.foldl (fun a c => a * 10 + (c.toNat - 48)) 0

mutual

/-- Model of the eval step of restore_snapshot line 151 on one Python literal
expression, in the scope of the mongodb_snapshot module: dict, list, string,
int, True, False and None literals evaluate to themselves; any other dotted
name fails, which models the NameError raised for the unbound name ObjectId
and the AttributeError raised for datetime.datetime (the module binds
datetime to the class, not the module, and never imports ObjectId).  Fuel
bounds the recursion depth and is chosen large enough by pyEval. -/
def parseVal : Nat → List Char → Option (PyVal × List Char)
  | 0, _ => Option.none
  | Nat.succ fuel, cs =>
    match skipWs cs with
    | [] => Option.none
    | c :: rest =>
      if c = '\x7b' then do
        let r ← parseDictTail fuel rest
        some (PyVal.pyDict r.1, r.2)
      else if c = '[' then do
        let r ← parseListTail fuel rest
        some (PyVal.pyList r.1, r.2)
      else if c = squote || c = dquote then do
        let r ← parseStrBody c rest
        some (PyVal.pyStr (String.mk r.1), r.2)
      else if c = '-' then
        let r := takeWhileChars Char.isDigit rest
        if r.1.isEmpty then Option.none
        else some (PyVal.pyInt (-(digitsToNat r.1 : Int)), r.2)
      else if c.isDigit then
        let r := takeWhileChars Char.isDigit (c :: rest)
        some (PyVal.pyInt (digitsToNat r.1 : Int), r.2)
      else if c.isAlpha || c = '_' then
        let r := takeWhileChars isIdentChar (c :: rest)
        if String.mk r.1 = "True" then some (PyVal.pyBool true, r.2)
        else if String.mk r.1 = "False" then some (PyVal.pyBool false, r.2)
        else if String.mk r.1 = "None" then some (PyVal.pyNone, r.2)
        else Option.none
      else Option.none

/-- Items of a dict literal after the opening brace: string keys separated by
colons and commas, closed by a brace.  Keys other than string literals are
outside the modelled grammar (encode only writes string keys). -/
def parseDictTail : Nat → List Char → Option (List (String × PyVal) × List Char)
  | 0, _ => Option.none
  | Nat.succ fuel, cs =>
    match skipWs cs with
    | '\x7d' :: rest => some ([], rest)
    | cs' => do
      let rk ← parseVal fuel cs'
      match rk.1 with
      | PyVal.pyStr k =>
        (match skipWs rk.2 with
         | ':' :: r2 => do
           let rv ← parseVal fuel r2
           match skipWs rv.2 with
           | ',' :: r4 => do
             let rrest ← parseDictTail fuel r4
             some ((k, rv.1) :: rrest.1, rrest.2)
           | '\x7d' :: r4 => some ([(k, rv.1)], r4)
           | _ => Option.none
         | _ => Option.none)
      | _ => Option.none

/-- Items of a list literal after the opening bracket. -/
def parseListTail : Nat → List Char → Option (List PyVal × List Char)
  | 0, _ => Option.none
  | Nat.succ fuel, cs =>
    match skipWs cs with
    | ']' :: rest => some ([], rest)
    | cs' => do
      let rv ← parseVal fuel cs'
      match skipWs rv.2 with
      | ',' :: r2 => do
        let rrest ← parseListTail fuel r2
        some (rv.1 :: rrest.1, rrest.2)
      | ']' :: r2 => some ([rv.1], r2)
      | _ => Option.none

end

/-- Model of eval(doc_str) from restore_snapshot line 151: parse one literal
and require that nothing but whitespace remains, else the call raises and the
result is Option.none. -/
def pyEval (s : String) : Option PyVal :=
  match parseVal (2 * s.length + 2) s.data with
  | some (v, r) => if (skipWs r).isEmpty then some v else Option.none
  | Option.none => Option.none

/-- The line-parsing step of restore_snapshot (lines 149-151): strip the
line, and evaluate it only when it starts with a left brace.  Option.none
covers both a silently skipped line and a failed eval. -/
def decode (line : String) : Option PyVal :=
  let doc_str := pyStrip line
  if startsLBrace doc_str then pyEval doc_str else Option.none

/-- The document-reading loop of restore_snapshot (lines 145-155): for each
line, strip it; when it starts with a left brace, eval it, appending the
resulting document on success and logging one decode error on failure; lines
not starting with a left brace are skipped silently.  Returns the document
list in order together with the number of logged decode errors. -/
def readDocuments : List String → List PyVal × Nat
  | [] => ([], 0)
  | line :: rest =>
    let doc_str := pyStrip line
    if startsLBrace doc_str then
      match pyEval doc_str with
      | some doc =>
        let r := readDocuments rest
        (doc :: r.1, r.2)
      | Option.none =>
        let r := readDocuments rest
        (r.1, r.2 + 1)
    else
      readDocuments rest

/-- One collection of a live database at the instance: its name and its
documents in cursor order. -/
structure CollData where
  name : String
  docs : List PyVal

/-- One database of the instance: its name and its collections. -/
structure DbData where
  name : String
  colls : List CollData

/-- One file written into a snapshot: its name and its lines. -/
structure WrittenFile where
  name : String
  lines : List String
deriving DecidableEq

/-- One database subdirectory written into a snapshot. -/
structure WrittenDir where
  name : String
  files : List WrittenFile
deriving DecidableEq

/-- Export of one collection by create_snapshot lines 72-80: the file is
named collection.json and holds one encoded document per line. -/
def exportCollection (c : CollData) : WrittenFile :=
  { name := c.name ++ ".json", lines := c.docs.map encode }

/-- The traversal of create_snapshot lines 59-80 over the database names
reported by the instance: a database whose name is admin or local is skipped
(line 60); every other database gets a subdirectory holding one exported file
per collection.  Connection handling is modelled separately by runOperation. -/
def create_snapshot : List DbData → List WrittenDir
  | [] => []
  | d :: rest =>
    if d.name = "admin" ∨ d.name = "local" then create_snapshot rest
    else { name := d.name, files := d.colls.map exportCollection } :: create_snapshot rest

/-- Python string comparison on code points, lexicographic, as used by
sorted() on snapshot names. -/
def charListLt : List Char → List Char → Bool
  | [], [] => false
  | [], _ :: _ => true
  | _ :: _, [] => false
  | a :: as, b :: bs =>
    if a.toNat < b.toNat then true
    else if b.toNat < a.toNat then false
    else charListLt as bs

/-- Lexicographic less-than on strings, the order Python sorted() uses. -/
def pyStrLt (a b : String) : Bool := charListLt a.data b.data

/-- Insert one name into a list already sorted in descending order, keeping
it descending: the new name goes before the first strictly smaller entry. -/
def insertDesc (x : String) : List String → List String
  | [] => [x]
  | y :: ys => if pyStrLt y x then x :: y :: ys else y :: insertDesc x ys

/-- Model of Python sorted(names, reverse=True): sort into descending
lexicographic order (list_snapshots line 104). -/
def sortedReverse : List String → List String
  | [] => []
  | x :: xs => insertDesc x (sortedReverse xs)

/-- The loop of list_snapshots lines 100-102: keep, in listing order, the
names of exactly the entries of the backup root that are directories. -/
def collectSnapshotDirs : List (String × Bool) → List String
  | [] => []
  | (n, isDir) :: rest =>
    if isDir then n :: collectSnapshotDirs rest else collectSnapshotDirs rest

/-- list_snapshots (lines 93-104) over a model of the backup root: the root
is Option.none when the directory is absent, otherwise a listing of entry
names each tagged with whether it is a directory.  An absent root yields the
empty list (line 96-97); otherwise the directory names are returned sorted in
reverse order (line 104). -/
def list_snapshots (root : Option (List (String × Bool))) : List String :=
  match root with
  | Option.none => []
  | some entries => sortedReverse (collectSnapshotDirs entries)

/-- One file inside a database subdirectory of a stored snapshot: its name
and the lines of its contents. -/
structure CollFile where
  name : String
  lines : List String
deriving DecidableEq

/-- One entry of a stored snapshot directory, as os.listdir reports it:
a name, whether it is a directory, and (for directories) its files. -/
structure SnapEntry where
  name : String
  isDir : Bool
  files : List CollFile
deriving DecidableEq

/-- One stored snapshot under the backup root. -/
structure Snapshot where
  name : String
  entries : List SnapEntry
deriving DecidableEq

/-- The state of the target instance: documents per database and collection
name. -/
def DB : Type := String → String → List PyVal

/-- A write issued against the instance during restore. -/
inductive DbOp where
  | deleteMany (dbName collName : String)
  | insertMany (dbName collName : String) (docs : List PyVal)

/-- Database name targeted by a write. -/
def DbOp.dbName : DbOp → String
  | DbOp.deleteMany d _ => d
  | DbOp.insertMany d _ _ => d

/-- Collection name targeted by a write. -/
def DbOp.collName : DbOp → String
  | DbOp.deleteMany _ c => c
  | DbOp.insertMany _ c _ => c

/-- Effect of one write on the instance state: delete_many with an empty
filter clears the collection; insert_many appends the documents. -/
def applyOp (db : DB) : DbOp → DB
  | DbOp.deleteMany dn cn => fun d c => if d = dn ∧ c = cn then [] else db d c
  | DbOp.insertMany dn cn docs => fun d c => if d = dn ∧ c = cn then db d c ++ docs else db d c

/-- Running state of a restore: the instance state, the writes issued so far
in order, and the number of decode errors logged so far. -/
structure RestoreState where
  db : DB
  ops : List DbOp
  decodeFailures : Nat

/-- Issue one write: apply it to the instance and record it. -/
def emit (st : RestoreState) (op : DbOp) : RestoreState :=
  { st with db := applyOp st.db op, ops := st.ops ++ [op] }

/-- Python collection_file[:-5], deriving the collection name from the file
name on restore_snapshot line 135. -/
def dropLast5 (s : String) : String :=
  String.mk (s.data.take (s.data.length - 5))

/-- Python f.endswith applied to the fixed suffix .json on restore_snapshot
line 132. -/
def endsWithJson (s : String) : Bool :=
  match s.data.reverse with
  | 'n' :: 'o' :: 's' :: 'j' :: '.' :: _ => true
  | _ => false

/-- Restore of one collection file (restore_snapshot lines 134-159): derive
the collection name by stripping the 5-character suffix, clear the target
collection with delete_many, read and decode the lines, and bulk-insert the
decoded documents only when at least one line decoded. -/
def restoreCollectionFile (st : RestoreState) (dbName : String) (file : CollFile) : RestoreState :=
  let collName := dropLast5 file.name
  let st1 := emit st (DbOp.deleteMany dbName collName)
  let r := readDocuments file.lines
  let st2 := { st1 with decodeFailures := st1.decodeFailures + r.2 }
  if r.1.isEmpty then st2 else emit st2 (DbOp.insertMany dbName collName r.1)

/-- Restore of one database subdirectory (restore_snapshot lines 123-159):
only the files whose names end in .json are collection files (line 131-132);
each is restored in listing order. -/
def restoreDbDir (st : RestoreState) (dbName : String) (files : List CollFile) : RestoreState :=
  (files.filter (fun f => endsWithJson f.name)).foldl
    (fun s f => restoreCollectionFile s dbName f) st

/-- The Python exceptions the restore model distinguishes. -/
inductive PyErr where
  | valueError (msg : String)
deriving DecidableEq

/-- Outcome of restore_snapshot: final instance state, writes issued,
decode errors logged, and the error raised if any. -/
structure RestoreOutcome where
  db : DB
  ops : List DbOp
  decodeFailures : Nat
  error : Option PyErr

/-- restore_snapshot (lines 109-161) over a model of the backup root, the
requested name and the initial instance state.  When no snapshot of that
name exists the operation raises the ValueError of line 117 before touching
any collection; otherwise every directory entry of the snapshot is a
database subdirectory (lines 120-121) and is restored in order.  Connection
handling is modelled separately by runOperation. -/
def restore_snapshot (root : List Snapshot) (name : String) (db0 : DB) : RestoreOutcome :=
  match root.find? (fun s => s.name == name) with
  | Option.none =>
    { db := db0, ops := [], decodeFailures := 0,
      error := some (PyErr.valueError ("Snapshot " ++ name ++ " does not exist")) }
  | some snap =>
    let final := (snap.entries.filter (fun e => e.isDir)).foldl
      (fun st e => restoreDbDir st e.name e.files)
      { db := db0, ops := [], decodeFailures := 0 }
    { db := final.db, ops := final.ops, decodeFailures := final.decodeFailures,
      error := Option.none }

/-- A MongoClient as the engine sees it: an identity and whether close() has
been called on it. -/
structure Client where
  id : Nat
  closed : Bool
deriving DecidableEq

/-- The connection-relevant state of one MongoDBSnapshot object: the value of
self.client, plus a counter giving fresh identities to new connections. -/
structure ManagerState where
  client : Option Client
  nextId : Nat
deriving DecidableEq

/-- connect (lines 32-41): self.client is assigned a fresh MongoClient. -/
def connect (s : ManagerState) : ManagerState :=
  { client := some { id := s.nextId, closed := false }, nextId := s.nextId + 1 }

/-- The guard at the top of create_snapshot (lines 46-47) and
restore_snapshot (lines 112-113): connect only when self.client is falsy;
any previously stored client object, closed or not, is truthy and is kept. -/
def acquireIfAbsent (s : ManagerState) : ManagerState :=
  match s.client with
  | Option.none => connect s
  | some _ => s

/-- The finally clause of both operations (lines 89-91 and 166-168):
self.client.close() is called when self.client is set, and self.client is
never reset to None. -/
def closeIfPresent (s : ManagerState) : ManagerState :=
  match s.client with
  | Option.none => s
  | some c => { client := some { id := c.id, closed := true }, nextId := s.nextId }

/-- How the body of an operation ends: normally, with the ValueError of
restore validation, or with an exception during traversal. -/
inductive ExitPath where
  | success
  | validationError
  | exception
deriving DecidableEq

/-- The connection lifecycle skeleton shared by create_snapshot and
restore_snapshot: acquire-if-absent at the start, then the body runs against
the stored client whatever its exit path, then the finally clause closes the
stored client.  Returns the client the body ran against and the state after
the finally clause; the exit path does not influence either, which is
exactly the path-independence of the Python finally block. -/
def runOperation (s : ManagerState) (exit : ExitPath) : Option Client × ManagerState :=
  let s1 := acquireIfAbsent s
  (s1.client, closeIfPresent s1)

/-- A document exercising every kind of value the round-trip property names:
a nested mapping, a sequence, a string, a number, a boolean, null, and one
extended scalar, the object id. -/
def exDoc : PyVal :=
  PyVal.pyDict
    [("a", PyVal.pyDict [("b", PyVal.pyList
        [PyVal.pyInt 1, PyVal.pyStr "x", PyVal.pyBool true, PyVal.pyNone])]),
     ("_id", PyVal.objectId "ff")]

/-- C1: the claim that decoding the encoded single-line representation of a
document containing an extended scalar yields the document again fails on the
code: the write step emits ObjectId('ff') inside the line, and the eval of the
read step has no binding for ObjectId in the module scope, so the line fails
to decode at all; the decode result is Option.none rather than the original
document. -/
theorem decode_encode_fails_on_extended_scalar :
    decode (encode exDoc) = Option.none
    ∧ (Option.none : Option PyVal) ≠ some exDoc := by
  refine ⟨rfl, fun h => Option.noConfusion h⟩

/-- C5: create_snapshot writes one subdirectory per reported database name,
keeping exactly the names that differ by case-sensitive comparison from the
two reserved names admin and local; on the instance databases admin, local,
shop and analytics the snapshot holds exactly the subdirectories shop and
analytics. -/
theorem create_snapshot_skips_system_databases :
    (∀ databases : List DbData,
      (create_snapshot databases).map WrittenDir.name
        = (databases.map DbData.name).filter
            (fun n => !(n == "admin" || n == "local")))
    ∧ (create_snapshot
        [{ name := "admin", colls := [] }, { name := "local", colls := [] },
         { name := "shop", colls := [] }, { name := "analytics", colls := [] }]).map
          WrittenDir.name = ["shop", "analytics"] := by
  constructor
  · intro databases
    induction databases with
    | nil => rfl
    | cons d rest ih =>
      simp only [create_snapshot, List.map_cons, List.filter_cons]
      by_cases h : d.name = "admin" ∨ d.name = "local"
      · have hb : (!(d.name == "admin" || d.name == "local")) = false := by
          rcases h with h | h <;> simp [h]
        rw [if_pos h, hb]
        simpa using ih
      · have hb : (!(d.name == "admin" || d.name == "local")) = true := by
          push_neg at h
          simp [h.1, h.2]
        rw [if_neg h, hb]
        simpa using ih
  · rfl

/-- C6: the claim that every invocation acquires a connection at its start
fails on the code: after a first completed operation, self.client still holds
the closed client, so a second invocation on the same object skips connect and
runs against the connection released by the first invocation.  The first
conjunct shows the first invocation ran on a fresh open client; the second
shows the second invocation ran on that same client after it was closed. -/
theorem second_invocation_reuses_released_client :
    (runOperation { client := Option.none, nextId := 0 } ExitPath.success).1
      = some { id := 0, closed := false }
    ∧ (runOperation
        (runOperation { client := Option.none, nextId := 0 } ExitPath.success).2
        ExitPath.success).1
      = some { id := 0, closed := true } :=
  ⟨rfl, rfl⟩

/-- C7: on every exit path of either operation, if the object holds a client
after the finally clause then that client is closed: the connection, when one
was acquired, is released before the operation returns or re-raises. -/
theorem connection_closed_on_all_exit_paths
    (s : ManagerState) (path : ExitPath) (c : Client)
    (h : (runOperation s path).2.client = some c) : c.closed = true := by
  cases hs : s.client with
  | none =>
    simp [runOperation, acquireIfAbsent, connect, closeIfPresent, hs] at h
    rw [← h]
  | some c0 =>
    simp [runOperation, acquireIfAbsent, connect, closeIfPresent, hs] at h
    rw [← h]

/-- Witness for C7 at a fresh manager state and a successful body. -/
theorem connection_closed_on_all_exit_paths_witness :
    (runOperation { client := Option.none, nextId := 0 } ExitPath.success).2.client
      = some { id := 0, closed := true }
    ∧ ({ id := 0, closed := true } : Client).closed = true :=
  ⟨rfl, connection_closed_on_all_exit_paths
    { client := Option.none, nextId := 0 } ExitPath.success
    { id := 0, closed := true } rfl⟩

/-- C10: the skip predicate of the reading loop is exactly the leading-brace
test on the stripped line: a line whose stripped text does not start with a
left brace is dropped silently, contributing neither a document nor a logged
decode error, while a line whose stripped text starts with a left brace but
fails to evaluate contributes exactly one logged decode error. -/
theorem decode_skip_predicate :
    ∀ (line : String) (rest : List String),
      (startsLBrace (pyStrip line) = false →
        readDocuments (line :: rest) = readDocuments rest)
      ∧ (startsLBrace (pyStrip line) = true → pyEval (pyStrip line) = Option.none →
        readDocuments (line :: rest)
          = ((readDocuments rest).1, (readDocuments rest).2 + 1)) := by
  intro line rest
  constructor
  · intro h
    simp [readDocuments, h]
  · intro h1 h2
    simp [readDocuments, h1, h2]

/-- Witness for C10 on a silently skipped line and on a logged one. -/
theorem decode_skip_predicate_witness :
    (startsLBrace (pyStrip "skip me") = false
      ∧ readDocuments ["skip me"] = readDocuments [])
    ∧ (startsLBrace (pyStrip "\x7b broken") = true
      ∧ pyEval (pyStrip "\x7b broken") = Option.none
      ∧ readDocuments ["\x7b broken"] = ((readDocuments []).1, (readDocuments []).2 + 1)) :=
  ⟨⟨rfl, (decode_skip_predicate "skip me" []).1 rfl⟩,
   ⟨rfl, rfl, (decode_skip_predicate "\x7b broken" []).2 rfl rfl⟩⟩

/-- A line that the reading loop logs as a decode failure: its stripped text
starts with a left brace and its eval fails. -/
def isLoggedDecodeFailure (line : String) : Bool :=
  startsLBrace (pyStrip line) && (pyEval (pyStrip line)).isNone

/-- Counting lemma: the number of values kept by filterMap equals the number
of inputs on which the function succeeds. -/
theorem length_filterMap_eq_length_filter (f : String → Option PyVal) (l : List String) :
    (l.filterMap f).length = (l.filter (fun x => (f x).isSome)).length := by
  induction l with
  | nil => rfl
  | cons a l ih =>
    cases h : f a <;> simp [List.filterMap_cons, h, List.filter_cons, ih]

/-- C4: the reading loop decodes every line independently: the documents it
returns are exactly the decoded values of the decodable lines in order, the
number of logged decode errors is exactly the number of lines that start with
a left brace after stripping and fail to evaluate, and in particular a file
with 10 decodable lines and 2 such malformed lines restores exactly 10
documents and logs exactly 2 decode failures without aborting the file. -/
theorem restore_partial_decode_tolerance :
    ∀ lines : List String,
      ((readDocuments lines).1 = lines.filterMap decode
        ∧ (readDocuments lines).2 = (lines.filter isLoggedDecodeFailure).length)
      ∧ ((lines.filter (fun l => (decode l).isSome)).length = 10 →
         (lines.filter isLoggedDecodeFailure).length = 2 →
         (readDocuments lines).1.length = 10 ∧ (readDocuments lines).2 = 2) := by
  intro lines
  have main : (readDocuments lines).1 = lines.filterMap decode
      ∧ (readDocuments lines).2 = (lines.filter isLoggedDecodeFailure).length := by
    induction lines with
    | nil => exact ⟨rfl, rfl⟩
    | cons line rest ih =>
      by_cases h : startsLBrace (pyStrip line) = true
      · cases he : pyEval (pyStrip line) with
        | none =>
          constructor
          · simp [readDocuments, h, he, List.filterMap_cons, decode, ih.1]
          · simp [readDocuments, h, he, List.filter_cons, isLoggedDecodeFailure, ih.2]
        | some doc =>
          constructor
          · simp [readDocuments, h, he, List.filterMap_cons, decode, ih.1]
          · simp [readDocuments, h, he, List.filter_cons, isLoggedDecodeFailure, ih.2]
      · rw [Bool.not_eq_true] at h
        constructor
        · simp [readDocuments, h, List.filterMap_cons, decode, ih.1]
        · simp [readDocuments, h, List.filter_cons, isLoggedDecodeFailure, ih.2]
  refine ⟨main, fun h10 h2 => ⟨?_, ?_⟩⟩
  · rw [main.1, length_filterMap_eq_length_filter decode lines]
    exact h10
  · rw [main.2]
    exact h2

/-- Twelve lines of a collection file: ten that decode and two whose stripped
text starts with a left brace but fails to evaluate. -/
def tenTwoLines : List String :=
  ["\x7b\x27a\x27: 0\x7d", "\x7b\x27a\x27: 1\x7d", "\x7b\x27a\x27: 2\x7d",
   "\x7b\x27a\x27: 3\x7d", "\x7b\x27a\x27: 4\x7d", "\x7b bad one",
   "\x7b\x27a\x27: 5\x7d", "\x7b\x27a\x27: 6\x7d", "\x7b\x27a\x27: 7\x7d",
   "\x7b bad two", "\x7b\x27a\x27: 8\x7d", "\x7b\x27a\x27: 9\x7d"]

/-- Witness for C4 on a twelve-line file with ten decodable and two malformed
lines. -/
theorem restore_partial_decode_tolerance_witness :
    ((tenTwoLines.filter (fun l => (decode l).isSome)).length = 10
      ∧ (tenTwoLines.filter isLoggedDecodeFailure).length = 2)
    ∧ ((readDocuments tenTwoLines).1.length = 10 ∧ (readDocuments tenTwoLines).2 = 2) :=
  ⟨⟨by decide, by decide⟩,
   (restore_partial_decode_tolerance tenTwoLines).2 (by decide) (by decide)⟩

/-- Asymmetry of the lexicographic order on character lists. -/
theorem charListLt_asymm : ∀ (a b : List Char),
    charListLt a b = true → charListLt b a = false := by
  intro a
  induction a with
  | nil =>
    intro b h
    cases b with
    | nil => simp [charListLt] at h
    | cons d ds => simp [charListLt]
  | cons c cs ih =>
    intro b h
    cases b with
    | nil => simp [charListLt] at h
    | cons d ds =>
      simp only [charListLt] at h ⊢
      by_cases h1 : c.toNat < d.toNat
      · have h2 : ¬ d.toNat < c.toNat := by omega
        simp [h1, h2]
      · by_cases h2 : d.toNat < c.toNat
        · simp [h1, h2] at h
        · have h3 : charListLt cs ds = true := by simpa [h1, h2] using h
          simp [h1, h2, ih ds h3]

/-- Transitivity of the reflexive complement of the lexicographic order. -/
theorem charListLt_ge_trans : ∀ (a b c : List Char),
    charListLt a b = false → charListLt b c = false → charListLt a c = false := by
  intro a
  induction a with
  | nil =>
    intro b c hab hbc
    cases c with
    | nil => simp [charListLt]
    | cons f fs =>
      cases b with
      | nil => simp [charListLt] at hbc
      | cons e es =>
        simp [charListLt] at hab
  | cons g gs ih =>
    intro b c hab hbc
    cases c with
    | nil => simp [charListLt]
    | cons f fs =>
      cases b with
      | nil => simp [charListLt] at hbc
      | cons e es =>
        simp only [charListLt] at hab hbc ⊢
        by_cases h1 : g.toNat < e.toNat
        · simp [h1] at hab
        · by_cases h2 : e.toNat < f.toNat
          · simp [h2] at hbc
          · by_cases h3 : g.toNat < f.toNat
            · omega
            · by_cases h4 : f.toNat < g.toNat
              · simp [h3, h4]
              · have h5 : e.toNat = g.toNat := by omega
                have h6 : f.toNat = e.toNat := by omega
                have hab' : charListLt gs es = false := by
                  have : ¬ e.toNat < g.toNat := by omega
                  simpa [h1, this] using hab
                have hbc' : charListLt es fs = false := by
                  have : ¬ f.toNat < e.toNat := by omega
                  simpa [h2, this] using hbc
                simp [h3, h4, ih es fs hab' hbc']

/-- Asymmetry of the Python string order. -/
theorem pyStrLt_asymm (a b : String) : pyStrLt a b = true → pyStrLt b a = false :=
  charListLt_asymm a.data b.data

/-- Transitivity of the descending comparison on Python strings. -/
theorem pyStrLt_ge_trans (a b c : String) :
    pyStrLt a b = false → pyStrLt b c = false → pyStrLt a c = false :=
  charListLt_ge_trans a.data b.data c.data

/-- Inserting into a list is a permutation of consing. -/
theorem insertDesc_perm (x : String) (l : List String) :
    (insertDesc x l).Perm (x :: l) := by
  induction l with
  | nil => exact List.Perm.refl _
  | cons y ys ih =>
    unfold insertDesc
    by_cases h : pyStrLt y x = true
    · rw [if_pos h]
    · rw [if_neg h]
      exact (ih.cons y).trans (List.Perm.swap x y ys)

/-- Inserting into a descending list keeps it descending. -/
theorem insertDesc_pairwise (x : String) (l : List String)
    (hl : l.Pairwise (fun a b => pyStrLt a b = false)) :
    (insertDesc x l).Pairwise (fun a b => pyStrLt a b = false) := by
  induction l with
  | nil => simp [insertDesc]
  | cons y ys ih =>
    rcases List.pairwise_cons.mp hl with ⟨hy, hys⟩
    unfold insertDesc
    by_cases h : pyStrLt y x = true
    · rw [if_pos h]
      refine List.Pairwise.cons ?_ hl
      intro z hz
      rcases List.mem_cons.mp hz with rfl | hz'
      · exact pyStrLt_asymm _ _ h
      · exact pyStrLt_ge_trans x y z (pyStrLt_asymm y x h) (hy z hz')
    · rw [if_neg h]
      refine List.Pairwise.cons ?_ (ih hys)
      intro z hz
      have hz2 : z = x ∨ z ∈ ys := by
        have := (insertDesc_perm x ys).mem_iff.mp hz
        simpa using this
      rcases hz2 with rfl | hz'
      · exact (Bool.not_eq_true _).mp h
      · exact hy z hz'

/-- Reverse sorting is a permutation of the input. -/
theorem sortedReverse_perm (l : List String) : (sortedReverse l).Perm l := by
  induction l with
  | nil => exact List.Perm.refl _
  | cons x xs ih => exact (insertDesc_perm x (sortedReverse xs)).trans (ih.cons x)

/-- Reverse sorting yields a descending list. -/
theorem sortedReverse_pairwise (l : List String) :
    (sortedReverse l).Pairwise (fun a b => pyStrLt a b = false) := by
  induction l with
  | nil => exact List.Pairwise.nil
  | cons x xs ih => exact insertDesc_pairwise x _ ih

/-- The directory-collecting loop keeps exactly the names of the directory
entries, in listing order. -/
theorem collectSnapshotDirs_eq (entries : List (String × Bool)) :
    collectSnapshotDirs entries = (entries.filter Prod.snd).map Prod.fst := by
  induction entries with
  | nil => rfl
  | cons e rest ih =>
    cases e with
    | mk n d => cases d <;> simp [collectSnapshotDirs, List.filter_cons, ih]

/-- C8: list_snapshots returns the names of exactly the directory entries of
the backup root, sorted so that no later name is lexicographically greater
than an earlier one (newest first for timestamp names); an absent root gives
the empty list rather than an error, and the three example timestamps come
back newest first. -/
theorem list_snapshots_newest_first :
    (∀ entries : List (String × Bool),
      (list_snapshots (some entries)).Perm ((entries.filter Prod.snd).map Prod.fst)
      ∧ (list_snapshots (some entries)).Pairwise (fun a b => pyStrLt a b = false))
    ∧ list_snapshots Option.none = []
    ∧ list_snapshots (some [("20240101_020000", true), ("20240102_020000", true),
        ("20240103_020000", true)])
      = ["20240103_020000", "20240102_020000", "20240101_020000"] := by
  refine ⟨fun entries => ⟨?_, sortedReverse_pairwise _⟩, rfl, by decide⟩
  exact (sortedReverse_perm _).trans (List.Perm.of_eq (collectSnapshotDirs_eq entries))

/-- C3: for every snapshot name with no matching directory under the backup
root, restore_snapshot raises the explicit ValueError of line 117, a distinct
validation error rather than a generic file-not-found, and issues no
delete and no insert: the instance state is unchanged. -/
theorem restore_snapshot_missing_is_value_error :
    ∀ (root : List Snapshot) (name : String) (db0 : DB),
      (∀ s ∈ root, s.name ≠ name) →
      (restore_snapshot root name db0).error
          = some (PyErr.valueError ("Snapshot " ++ name ++ " does not exist"))
      ∧ (restore_snapshot root name db0).ops = []
      ∧ ∀ d c, (restore_snapshot root name db0).db d c = db0 d c := by
  intro root name db0 h
  have hf : root.find? (fun s => s.name == name) = Option.none := by
    rw [List.find?_eq_none]
    intro s hs
    simp [h s hs]
  unfold restore_snapshot
  rw [hf]
  exact ⟨rfl, rfl, fun d c => rfl⟩

/-- Witness for C3: one stored snapshot, a request for a different name. -/
theorem restore_snapshot_missing_is_value_error_witness :
    (∀ s ∈ [({ name := "20240101_020000", entries := [] } : Snapshot)],
        s.name ≠ "nonexistent")
    ∧ (restore_snapshot [{ name := "20240101_020000", entries := [] }]
        "nonexistent" (fun _ _ => [PyVal.pyInt 7])).error
      = some (PyErr.valueError ("Snapshot " ++ "nonexistent" ++ " does not exist"))
    ∧ (restore_snapshot [{ name := "20240101_020000", entries := [] }]
        "nonexistent" (fun _ _ => [PyVal.pyInt 7])).ops = []
    ∧ (restore_snapshot [{ name := "20240101_020000", entries := [] }]
        "nonexistent" (fun _ _ => [PyVal.pyInt 7])).db "shop" "items"
      = [PyVal.pyInt 7] := by
  have h := restore_snapshot_missing_is_value_error
    [{ name := "20240101_020000", entries := [] }] "nonexistent"
    (fun _ _ => [PyVal.pyInt 7]) (by decide)
  exact ⟨by decide, h.1, h.2.1, h.2.2 "shop" "items"⟩

/-- Pointwise effect of restoring one collection file: the target collection
ends up holding exactly the decoded documents of the file (delete_many clears
it, and insert_many runs only when at least one document decoded, which gives
the same final contents either way), and every other collection is
untouched. -/
theorem restoreCollectionFile_db (st : RestoreState) (dn : String) (f : CollFile)
    (d c : String) :
    (restoreCollectionFile st dn f).db d c
      = if d = dn ∧ c = dropLast5 f.name then (readDocuments f.lines).1
        else st.db d c := by
  simp only [restoreCollectionFile, emit, applyOp]
  by_cases h : (readDocuments f.lines).1.isEmpty
  · rw [if_pos h]
    by_cases hdc : d = dn ∧ c = dropLast5 f.name
    · simp only [if_pos hdc]
      exact (List.isEmpty_iff.mp h).symm
    · simp only [if_neg hdc]
  · rw [if_neg h]
    by_cases hdc : d = dn ∧ c = dropLast5 f.name
    · simp only [if_pos hdc, List.nil_append]
    · simp only [if_neg hdc]

/-- Every write issued by restoring one collection file either was already
issued or targets that database and the collection named by the file. -/
theorem restoreCollectionFile_ops (st : RestoreState) (dn : String) (f : CollFile) :
    ∀ op ∈ (restoreCollectionFile st dn f).ops,
      op ∈ st.ops ∨ (op.dbName = dn ∧ op.collName = dropLast5 f.name) := by
  intro op hop
  simp only [restoreCollectionFile, emit] at hop
  by_cases h : (readDocuments f.lines).1.isEmpty
  · rw [if_pos h] at hop
    simp only [List.mem_append, List.mem_singleton] at hop
    rcases hop with hop | hop
    · exact Or.inl hop
    · subst hop
      exact Or.inr ⟨rfl, rfl⟩
  · rw [if_neg h] at hop
    simp only [List.mem_append, List.mem_singleton] at hop
    rcases hop with (hop | hop) | hop
    · exact Or.inl hop
    · subst hop
      exact Or.inr ⟨rfl, rfl⟩
    · subst hop
      exact Or.inr ⟨rfl, rfl⟩

/-- Frame lemma for the per-database file loop: a collection of another
database, or a collection not named by any of the files, is untouched. -/
theorem restoreFiles_db_frame (dn : String) (fs : List CollFile) :
    ∀ (st : RestoreState) (d c : String),
      (d ≠ dn ∨ c ∉ fs.map (fun g => dropLast5 g.name)) →
      ((fs.foldl (fun s g => restoreCollectionFile s dn g) st).db d c = st.db d c) := by
  induction fs with
  | nil => intro st d c _; rfl
  | cons f fs ih =>
    intro st d c h
    rw [List.foldl_cons]
    have hrest : d ≠ dn ∨ c ∉ fs.map (fun g => dropLast5 g.name) := by
      rcases h with h | h
      · exact Or.inl h
      · exact Or.inr (fun hc => h (List.mem_cons_of_mem _ hc))
    rw [ih _ d c hrest, restoreCollectionFile_db]
    rw [if_neg]
    rintro ⟨h1, h2⟩
    rcases h with h | h
    · exact h h1
    · exact h (h2 ▸ List.mem_cons_self _ _)

/-- Hit lemma for the per-database file loop: when the derived collection
names are pairwise distinct, the collection named by a file of the list ends
up holding exactly that file's decoded documents. -/
theorem restoreFiles_db_hit (dn : String) (fs : List CollFile) :
    ∀ (st : RestoreState) (f : CollFile),
      f ∈ fs → (fs.map (fun g => dropLast5 g.name)).Nodup →
      ((fs.foldl (fun s g => restoreCollectionFile s dn g) st).db dn (dropLast5 f.name)
        = (readDocuments f.lines).1) := by
  induction fs with
  | nil => intro st f hf _; cases hf
  | cons g gs ih =>
    intro st f hf hnd
    rw [List.foldl_cons]
    rcases List.mem_cons.mp hf with rfl | hf'
    · have hnotin : dropLast5 f.name ∉ gs.map (fun g => dropLast5 g.name) := by
        have := (List.nodup_cons.mp hnd).1
        simpa using this
      rw [restoreFiles_db_frame dn gs _ _ _ (Or.inr hnotin), restoreCollectionFile_db]
      simp
    · exact ih _ f hf' (List.nodup_cons.mp hnd).2

/-- Frame lemma for the database loop of restore_snapshot: a database not
named by any processed entry is untouched. -/
theorem restoreEntries_db_frame (es : List SnapEntry) :
    ∀ (st : RestoreState) (d c : String),
      d ∉ es.map SnapEntry.name →
      ((es.foldl (fun st e => restoreDbDir st e.name e.files) st).db d c = st.db d c) := by
  induction es with
  | nil => intro st d c _; rfl
  | cons e es ih =>
    intro st d c h
    rw [List.foldl_cons]
    have h1 : d ≠ e.name := by
      intro hd
      exact h (hd ▸ List.mem_cons_self _ _)
    have h2 : d ∉ es.map SnapEntry.name := fun hc => h (List.mem_cons_of_mem _ hc)
    rw [ih _ d c h2]
    unfold restoreDbDir
    exact restoreFiles_db_frame e.name _ _ d c (Or.inl h1)

/-- Hit lemma for the database loop: with pairwise distinct database names
and pairwise distinct derived collection names inside the hit entry, the
collection named by a file of that entry ends up holding exactly that file's
decoded documents. -/
theorem restoreEntries_db_hit (es : List SnapEntry) :
    ∀ (st : RestoreState) (e : SnapEntry) (f : CollFile),
      e ∈ es → (es.map SnapEntry.name).Nodup →
      f ∈ e.files.filter (fun g => endsWithJson g.name) →
      (((e.files.filter (fun g => endsWithJson g.name)).map
          (fun g => dropLast5 g.name)).Nodup) →
      ((es.foldl (fun st e => restoreDbDir st e.name e.files) st).db
          e.name (dropLast5 f.name)
        = (readDocuments f.lines).1) := by
  induction es with
  | nil => intro st e f he _ _ _; cases he
  | cons g gs ih =>
    intro st e f he hnd hf hndf
    rw [List.foldl_cons]
    rcases List.mem_cons.mp he with rfl | he'
    · have hnotin : e.name ∉ gs.map SnapEntry.name := by
        have := (List.nodup_cons.mp hnd).1
        simpa using this
      rw [restoreEntries_db_frame gs _ e.name _ hnotin]
      unfold restoreDbDir
      exact restoreFiles_db_hit e.name _ _ f hf hndf
    · exact ih _ e f he' (List.nodup_cons.mp hnd).2 hf hndf

/-- C2: after restore_snapshot finds the requested snapshot and completes,
every target collection named by a collection file of a database subdirectory
holds exactly the documents decoded from that file, whatever the collection
held before: existing documents are cleared by delete_many before the
snapshot's documents are inserted, an overwrite and never a merge. -/
theorem restore_snapshot_overwrites (root : List Snapshot) (name : String) (db0 : DB)
    (snap : Snapshot) (e : SnapEntry) (f : CollFile)
    (hfind : root.find? (fun s => s.name == name) = some snap)
    (hnd : ((snap.entries.filter (fun x => x.isDir)).map SnapEntry.name).Nodup)
    (he : e ∈ snap.entries.filter (fun x => x.isDir))
    (hf : f ∈ e.files.filter (fun g => endsWithJson g.name))
    (hndf : (((e.files.filter (fun g => endsWithJson g.name)).map
        (fun g => dropLast5 g.name)).Nodup)) :
    (restore_snapshot root name db0).db e.name (dropLast5 f.name)
      = (readDocuments f.lines).1 := by
  unfold restore_snapshot
  rw [hfind]
  exact restoreEntries_db_hit _ _ e f he hnd hf hndf

/-- The one collection file of the witness snapshot for C2. -/
def fileW : CollFile := { name := "items.json", lines := ["\x7b\x27a\x27: 1\x7d"] }

/-- The one database subdirectory of the witness snapshot for C2. -/
def entryW : SnapEntry := { name := "shop", isDir := true, files := [fileW] }

/-- The witness snapshot for C2. -/
def snapW : Snapshot := { name := "20240101_020000", entries := [entryW] }

/-- Initial instance state for the C2 witness: the target collection already
holds a document that is not in the snapshot. -/
def db0W : DB := fun d c => if d = "shop" ∧ c = "items" then [PyVal.pyStr "old"] else []

/-- Witness for C2: restoring over a non-empty collection leaves exactly the
snapshot's decoded document. -/
theorem restore_snapshot_overwrites_witness :
    ([snapW].find? (fun s => s.name == "20240101_020000") = some snapW)
    ∧ ((snapW.entries.filter (fun x => x.isDir)).map SnapEntry.name).Nodup
    ∧ entryW ∈ snapW.entries.filter (fun x => x.isDir)
    ∧ fileW ∈ entryW.files.filter (fun g => endsWithJson g.name)
    ∧ (((entryW.files.filter (fun g => endsWithJson g.name)).map
        (fun g => dropLast5 g.name)).Nodup)
    ∧ (restore_snapshot [snapW] "20240101_020000" db0W).db "shop" "items"
      = [PyVal.pyDict [("a", PyVal.pyInt 1)]] := by
  have h := restore_snapshot_overwrites [snapW] "20240101_020000" db0W snapW entryW fileW
    (by decide) (by decide) (by decide) (by decide) (by decide)
  exact ⟨by decide, by decide, by decide, by decide, by decide, h.trans rfl⟩

/-- Every write of the per-database file loop either predates it or targets
the given database and a collection named by one of the files. -/
theorem restoreAllFiles_ops (dn : String) (fs : List CollFile) :
    ∀ (st : RestoreState) (op : DbOp),
      op ∈ (fs.foldl (fun s g => restoreCollectionFile s dn g) st).ops →
      op ∈ st.ops ∨ ∃ f, f ∈ fs ∧ op.dbName = dn ∧ op.collName = dropLast5 f.name := by
  induction fs with
  | nil => intro st op hop; exact Or.inl hop
  | cons f fs ih =>
    intro st op hop
    rw [List.foldl_cons] at hop
    rcases ih _ op hop with hop' | ⟨g, hg, h1, h2⟩
    · rcases restoreCollectionFile_ops st dn f op hop' with hop'' | ⟨h1, h2⟩
      · exact Or.inl hop''
      · exact Or.inr ⟨f, List.mem_cons_self _ _, h1, h2⟩
    · exact Or.inr ⟨g, List.mem_cons_of_mem _ hg, h1, h2⟩

/-- C9: restoring a database subdirectory treats exactly the files whose
names end in .json as collection files: the restore of the directory is
unchanged when the other files are removed, so a file with any other name
causes no delete and no insert, and every write that the directory restore
adds targets a collection named by stripping the 5-character .json suffix
from the name of one of its .json files. -/
theorem restore_processes_only_json :
    ∀ (st : RestoreState) (dbName : String) (files : List CollFile) (op : DbOp),
      restoreDbDir st dbName files
          = restoreDbDir st dbName (files.filter (fun f => endsWithJson f.name))
      ∧ (op ∈ (restoreDbDir st dbName files).ops → op ∉ st.ops →
          ∃ f, f ∈ files ∧ endsWithJson f.name = true
            ∧ op.dbName = dbName ∧ op.collName = dropLast5 f.name) := by
  intro st dbName files op
  constructor
  · unfold restoreDbDir
    rw [List.filter_filter]
    simp
  · intro hop hnot
    unfold restoreDbDir at hop
    rcases restoreAllFiles_ops dbName _ st op hop with hop' | ⟨f, hf, h1, h2⟩
    · exact absurd hop' hnot
    · rcases List.mem_filter.mp hf with ⟨hmem, hjson⟩
      exact ⟨f, hmem, hjson, h1, h2⟩

/-- Files of the C9 witness: one collection file and one file with another
name. -/
def filesW : List CollFile :=
  [{ name := "items.json", lines := ["\x7b\x27a\x27: 1\x7d"] },
   { name := "notes.txt", lines := ["\x7b\x27b\x27: 2\x7d"] }]

/-- Initial restore state of the C9 witness. -/
def stW : RestoreState := { db := fun _ _ => [], ops := [], decodeFailures := 0 }

/-- Witness for C9: the non-json file changes nothing, and the delete issued
for the json file targets the collection named by stripping its suffix. -/
theorem restore_processes_only_json_witness :
    (restoreDbDir stW "shop" filesW
        = restoreDbDir stW "shop" (filesW.filter (fun f => endsWithJson f.name)))
    ∧ (DbOp.deleteMany "shop" "items" ∈ (restoreDbDir stW "shop" filesW).ops
        ∧ DbOp.deleteMany "shop" "items" ∉ stW.ops
        ∧ ∃ f, f ∈ filesW ∧ endsWithJson f.name = true
            ∧ (DbOp.deleteMany "shop" "items").dbName = "shop"
            ∧ (DbOp.deleteMany "shop" "items").collName = dropLast5 f.name) := by
  have hmem : DbOp.deleteMany "shop" "items" ∈ (restoreDbDir stW "shop" filesW).ops :=
    List.mem_cons_self _ _
  have hnot : DbOp.deleteMany "shop" "items" ∉ stW.ops := by
    intro h
    exact List.not_mem_nil _ h
  refine ⟨(restore_processes_only_json stW "shop" filesW
      (DbOp.deleteMany "shop" "items")).1, hmem, hnot,
    (restore_processes_only_json stW "shop" filesW
      (DbOp.deleteMany "shop" "items")).2 hmem hnot⟩
